import Mathlib

/-!
Shallow embedding of the pagination and batched-write core of
`src/pythonsolr/pythonsolr.py` (classes `SolrResultsPaginator` and
`SolrBatchAdder`, and the `solr_batch_adder` context manager).

The Solr collaborator (`pysolr.Solr`) is modelled as a behaviour
function answering each call with success or an exception; every
operation of the embedding additionally returns the list of
collaborator calls it issued, so that theorems can speak about which
requests were sent.  Documents are opaque to the batching and
pagination logic, so they are modelled as bare natural numbers.
-/

namespace PythonSolr

/-- Documents are opaque payloads to the core logic; model them as ids. -/
abbrev Doc := Nat

/-- Exceptions the collaborator can raise.  `timeout` stands for
`socket.timeout` (the only exception `SolrBatchAdder.commit` catches);
`transport` and `server` stand for the other error kinds. -/
inductive Exn
  | timeout
  | transport
  | server
deriving DecidableEq

/-- A call issued to the Solr collaborator by the batch adder:
`solr.add(docs, commit=commit)` or `solr.commit()`. -/
inductive SolrCall
  | add (docs : List Doc) (commit : Bool)
  | commit
deriving DecidableEq

/-- Behaviour of the collaborator for the batch adder: the answer to a
call, `none` meaning success and `some e` meaning exception `e`. -/
abbrev BatchBeh := SolrCall → Option Exn

/-- Trace events: the calls actually issued (issued even when they fail). -/
inductive Event
  | add (docs : List Doc) (commit : Bool)
  | commitCall
deriving DecidableEq

/-- State of `SolrBatchAdder`: the `batch` list, its tracked length
`batch_len`, the `batch_size` bound and the `auto_commit` flag. -/
structure SolrBatchAdder where
  batch : List Doc
  batch_len : Nat
  batch_size : Nat
  auto_commit : Bool
deriving DecidableEq

/-- `SolrBatchAdder.__init__`: empty batch. -/
def mkBatchAdder (batch_size : Nat) (auto_commit : Bool) : SolrBatchAdder :=
  { batch := [], batch_len := 0, batch_size := batch_size, auto_commit := auto_commit }

/-- `SolrBatchAdder.commit`: issues `solr.commit()`, catching only
`socket.timeout`; any other exception propagates.  Result: the
propagated exception (if any) and the issued calls. -/
def commitMethod (beh : BatchBeh) : Option Exn × List Event :=
  match beh SolrCall.commit with
  | none => (none, [Event.commitCall])
  | some Exn.timeout => (none, [Event.commitCall])
  | some e => (some e, [Event.commitCall])

/-- `SolrBatchAdder.flush`: one batched `solr.add(batch, commit=auto_commit)`;
on any exception, a per-document fallback pass (`solr.add([item], commit=False)`
for each item, each failure caught), then `self.commit()` when `auto_commit`.
The lines clearing the batch run only if no exception escapes the
`try/except` block, so a propagating commit failure leaves the batch intact.
Result: (new state, propagated exception, issued calls). -/
def SolrBatchAdder.flush (s : SolrBatchAdder) (beh : BatchBeh) :
    SolrBatchAdder × Option Exn × List Event :=
  let e0 := Event.add s.batch s.auto_commit
  match beh (SolrCall.add s.batch s.auto_commit) with
  | none => ({ s with batch := [], batch_len := 0 }, none, [e0])
  | some _ =>
    let fb := s.batch.map (fun d => Event.add [d] false)
    if s.auto_commit then
      match commitMethod beh with
      | (none, cev) => ({ s with batch := [], batch_len := 0 }, none, e0 :: fb ++ cev)
      | (some e, cev) => (s, some e, e0 :: fb ++ cev)
    else
      ({ s with batch := [], batch_len := 0 }, none, e0 :: fb)

/-- `SolrBatchAdder._add_to_batch`. -/
def SolrBatchAdder.add_to_batch (s : SolrBatchAdder) (doc : Doc) : SolrBatchAdder :=
  { s with batch := s.batch ++ [doc], batch_len := s.batch_len + 1 }

/-- `SolrBatchAdder._append_commit`: flush first when the batch is already
at `batch_size`, then append the document.  An exception escaping the
flush propagates before the append happens. -/
def SolrBatchAdder.append_commit (s : SolrBatchAdder) (beh : BatchBeh) (doc : Doc) :
    SolrBatchAdder × Option Exn × List Event :=
  if s.batch_len = s.batch_size then
    match s.flush beh with
    | (s', none, evs) => (s'.add_to_batch doc, none, evs)
    | (s', some e, evs) => (s', some e, evs)
  else
    (s.add_to_batch doc, none, [])

/-- `SolrBatchAdder.add_one`. -/
def SolrBatchAdder.add_one (s : SolrBatchAdder) (beh : BatchBeh) (doc : Doc) :
    SolrBatchAdder × Option Exn × List Event :=
  s.append_commit beh doc

/-- `SolrBatchAdder.add_multi`: `_append_commit` on each document in order;
an exception aborts the remaining documents. -/
def SolrBatchAdder.add_multi (s : SolrBatchAdder) (beh : BatchBeh) :
    List Doc → SolrBatchAdder × Option Exn × List Event
  | [] => (s, none, [])
  | d :: rest =>
    match s.append_commit beh d with
    | (s', none, evs) =>
      let r := s'.add_multi beh rest
      (r.1, r.2.1, evs ++ r.2.2)
    | (s', some e, evs) => (s', some e, evs)

/-- The `solr_batch_adder` context manager: construct the adder, run the
body (modelled as a list of documents passed to `add_one` in turn via
`add_multi`), and in the `finally` block call `flush`.  The flush runs
even when the body raised; an exception from the flush replaces the
body's. -/
def solr_batch_adder_scope (beh : BatchBeh) (batch_size : Nat) (auto_commit : Bool)
    (docs : List Doc) : SolrBatchAdder × Option Exn × List Event :=
  let body := (mkBatchAdder batch_size auto_commit).add_multi beh docs
  let fl := body.1.flush beh
  (fl.1, (match fl.2.1 with | some e => some e | none => body.2.1), body.2.2 ++ fl.2.2)

/-- The collaborator behaviour in which every call succeeds. -/
def allOk : BatchBeh := fun _ => none

/-- Whether an exception answered to `solr.commit()` escapes
`SolrBatchAdder.commit` (everything but a `socket.timeout`). -/
def commitEscapes : Option Exn → Bool
  | some Exn.transport => true
  | some Exn.server => true
  | _ => false

/-! ### The results paginator -/

/-- A parameter value in a Solr query-parameter mapping. -/
inductive Val
  | s (v : String)
  | n (v : Nat)
deriving DecidableEq

/-- A parameter mapping, modelled as an association list. -/
abbrev Params := List (String × Val)

/-- Python `d = dict(ps); d[k] = v`: every binding of `ps` except for
key `k`, plus the new binding. -/
def setKey (ps : Params) (k : String) (v : Val) : Params :=
  ps.filter (fun kv => kv.1 != k) ++ [(k, v)]

/-- One decoded Solr response as the paginator consumes it: the page's
documents (`results.docs`) and the total hit count (`results.hits`). -/
structure Page where
  docs : List Doc
  hits : Nat
deriving DecidableEq

/-- Behaviour of `solr.search(query, **params)`. -/
abbrev SearchBeh := String → Params → Except Exn Page

/-- A search request issued to the collaborator: query and parameters. -/
abbrev FetchEv := String × Params

/-- State of `SolrResultsPaginator`.  `page` and `item_iter` model
`self.page` and the generator `self.item_iter` (the not-yet-yielded
items of the current page); both attributes are absent until the first
fetch, modelled by `none` / `[]`.  `inited` is `self.initialized`. -/
structure Paginator where
  query : String
  default_params : Params
  inited : Bool
  exhausted : Bool
  index : Nat
  max_index : Option Nat
  page : Option Page
  item_iter : List Doc
deriving DecidableEq

/-- `SolrResultsPaginator.__init__`. -/
def mkPaginator (query : String) (default_params : Params) (max_index : Option Nat) :
    Paginator :=
  { query := query, default_params := default_params, inited := false,
    exhausted := false, index := 0, max_index := max_index, page := none,
    item_iter := [] }

/-- Outcome of `SolrResultsPaginator.next`: a document, `StopIteration`,
or a propagated exception. -/
inductive NextRes
  | doc (d : Doc)
  | stop
  | exn (e : Exn)
deriving DecidableEq

/-- Whether a `next` outcome yielded a document. -/
def NextRes.isDoc : NextRes → Bool
  | NextRes.doc _ => true
  | _ => false

/-- `SolrResultsPaginator.move_to_next_page`: copy `default_params`,
overwrite `start` with the paginator's index, fire the search.  The
issued request is recorded even when the search raises; `self.page` and
`self.item_iter` are assigned only on success. -/
def Paginator.move_to_next_page (p : Paginator) (beh : SearchBeh) :
    Except Exn Paginator × List FetchEv :=
  let qp := setKey p.default_params "start" (Val.n p.index)
  (match beh p.query qp with
    | Except.error e => Except.error e
    | Except.ok pg => Except.ok { p with page := some pg, item_iter := pg.docs },
   [(p.query, qp)])

/-- `SolrResultsPaginator._init_if_needed`: first fetch; `initialized` is
set only after `move_to_next_page` returned without raising, so a raise
leaves the pre-fetch state. -/
def Paginator.init_if_needed (p : Paginator) (beh : SearchBeh) :
    Except Exn Paginator × List FetchEv :=
  if p.inited then (Except.ok p, [])
  else
    match p.move_to_next_page beh with
    | (Except.ok p', evs) => (Except.ok { p' with inited := true }, evs)
    | (Except.error e, evs) => (Except.error e, evs)

/-- `SolrResultsPaginator._next`: yield the next buffered item; when the
page is spent, fetch the next page.  Any exception of that fetch — and
the `assert` failure on an empty page — is caught by the bare `except`,
which sets `exhausted` and raises `StopIteration` (`none` here); on a
successful non-empty fetch the recursive re-call yields the new page's
first document.  Returns (state, yielded document or `none`, fetches). -/
def Paginator.next_aux (p : Paginator) (beh : SearchBeh) :
    Paginator × Option Doc × List FetchEv :=
  match p.item_iter with
  | d :: rest => ({ p with item_iter := rest }, some d, [])
  | [] =>
    match p.move_to_next_page beh with
    | (Except.error _, evs) => ({ p with exhausted := true }, none, evs)
    | (Except.ok p', evs) =>
      match p'.item_iter with
      | [] => ({ p' with exhausted := true }, none, evs)
      | d :: rest => ({ p' with item_iter := rest }, some d, evs)

/-- `SolrResultsPaginator._check_max_index`: true when the `StopIteration`
cutoff fires (index strictly above `max_index`), before anything else. -/
def Paginator.past_max (p : Paginator) : Bool :=
  match p.max_index with
  | some m => decide (p.index > m)
  | none => false

/-- `SolrResultsPaginator.next`: max-index check (raising `StopIteration`
without touching state or issuing calls), lazy init (whose exceptions
propagate, leaving the state untouched), then `_next`; the per-document
index is incremented exactly when a document is returned. -/
def Paginator.next (p : Paginator) (beh : SearchBeh) :
    Paginator × NextRes × List FetchEv :=
  if p.past_max then (p, NextRes.stop, [])
  else
    match p.init_if_needed beh with
    | (Except.error e, evs) => (p, NextRes.exn e, evs)
    | (Except.ok p1, evs) =>
      match p1.next_aux beh with
      | (p2, some d, evs2) =>
        ({ p2 with index := p2.index + 1 }, NextRes.doc d, evs ++ evs2)
      | (p2, none, evs2) => (p2, NextRes.stop, evs ++ evs2)

/-- `SolrResultsPaginator.__len__`: init if needed, then the current
page's total hit count (`self.page.hits`). -/
def Paginator.size (p : Paginator) (beh : SearchBeh) :
    Except Exn (Paginator × Nat) × List FetchEv :=
  match p.init_if_needed beh with
  | (Except.error e, evs) => (Except.error e, evs)
  | (Except.ok p1, evs) =>
    (Except.ok (p1, match p1.page with | some pg => pg.hits | none => 0), evs)

/-- The hit count and fetches of a `size` call, forgetting the state. -/
def sizeHits (r : Except Exn (Paginator × Nat) × List FetchEv) :
    Except Exn Nat × List FetchEv :=
  (r.1.map (fun x => x.2), r.2)

/-- `SolrResultsPaginator.__iter__`: an exhausted paginator is replaced
by a fresh instance built from the same query and default parameters
(`max_index` is not passed on); otherwise iteration continues on the
same instance. -/
def Paginator.iter (p : Paginator) : Paginator :=
  if p.exhausted then mkPaginator p.query p.default_params none else p

/-- Repeatedly call `next`, recording each call's (result, fetches). -/
def runNexts (beh : SearchBeh) : Nat → Paginator → List (NextRes × List FetchEv) × Paginator
  | 0, p => ([], p)
  | Nat.succ n, p =>
    let r := p.next beh
    let rest := runNexts beh n r.1
    ((r.2.1, r.2.2) :: rest.1, rest.2)

/-- Number of documents returned to the caller in a run. -/
def countDocs (steps : List (NextRes × List FetchEv)) : Nat :=
  (steps.filter (fun st => st.1.isDoc)).length

/-- Checks that every fetch issued during a run sends
`start = number of documents returned to the caller so far` (running
count `k`), merged over the fixed default parameters. -/
def startsOk (q : String) (dp : Params) : Nat → List (NextRes × List FetchEv) → Bool
  | _, [] => true
  | k, st :: rest =>
    st.2.all (fun ev => decide (ev = (q, setKey dp "start" (Val.n k)))) &&
      startsOk q dp (k + (if st.1.isDoc then 1 else 0)) rest

/-- A search behaviour in which every fetch succeeds, given by a page
function. -/
def totalBeh (pg : String → Params → Page) : SearchBeh :=
  fun q ps => Except.ok (pg q ps)

/-- Erase a page's total-hit count. -/
def Page.eraseHits (pg : Page) : Page := { docs := pg.docs, hits := 0 }

/-- Erase the total-hit count stored in the paginator state. -/
def Paginator.eraseHits (p : Paginator) : Paginator :=
  { p with page := p.page.map Page.eraseHits }

/-- Erase the total-hit counts a behaviour reports. -/
def maskHits (beh : SearchBeh) : SearchBeh :=
  fun q ps => (beh q ps).map Page.eraseHits

/-- A demonstration page function: every fetch answers an empty page
that still reports 5 total hits. -/
def emptyPages : String → Params → Page := fun _ _ => { docs := [], hits := 5 }

/-! ### Lemmas about the batch adder under the all-success behaviour -/

theorem flush_allOk (s : SolrBatchAdder) :
    s.flush allOk = ({ s with batch := [], batch_len := 0 }, none,
      [Event.add s.batch s.auto_commit]) := rfl

theorem append_commit_allOk_full (s : SolrBatchAdder) (d : Doc)
    (h : s.batch_len = s.batch_size) :
    s.append_commit allOk d =
      ({ s with batch := [d], batch_len := 1 }, none,
        [Event.add s.batch s.auto_commit]) := by
  simp [SolrBatchAdder.append_commit, h, flush_allOk, SolrBatchAdder.add_to_batch]

theorem append_commit_allOk_notfull (s : SolrBatchAdder) (d : Doc)
    (h : ¬ s.batch_len = s.batch_size) :
    s.append_commit allOk d = (s.add_to_batch d, none, []) := by
  simp [SolrBatchAdder.append_commit, h]

/-- Running `add_multi` under the all-success behaviour from a state whose
batch already holds `batch_len` documents (`1 ≤ batch_len ≤ batch_size`):
no exception, the final buffer holds `(batch_len - 1 + docs.length) % B + 1`
documents and exactly `(batch_len - 1 + docs.length) / B` flushes were issued. -/
theorem add_multi_allOk_run (B : Nat) (hB : 0 < B) (docs : List Doc) :
    ∀ s : SolrBatchAdder, s.batch_size = B → s.batch_len = s.batch.length →
      1 ≤ s.batch_len → s.batch_len ≤ B →
      (s.add_multi allOk docs).2.1 = none ∧
      (s.add_multi allOk docs).1.batch.length = (s.batch_len - 1 + docs.length) % B + 1 ∧
      (s.add_multi allOk docs).2.2.length = (s.batch_len - 1 + docs.length) / B := by
  induction docs with
  | nil =>
    intro s hsize hlen h1 h2
    refine ⟨rfl, ?_, ?_⟩
    · show s.batch.length = (s.batch_len - 1 + 0) % B + 1
      rw [Nat.add_zero, Nat.mod_eq_of_lt (by omega)]
      omega
    · show (0 : Nat) = (s.batch_len - 1 + 0) / B
      rw [Nat.add_zero, Nat.div_eq_of_lt (by omega)]
  | cons d rest ih =>
    intro s hsize hlen h1 h2
    by_cases hfull : s.batch_len = s.batch_size
    · have hstep := append_commit_allOk_full s d hfull
      have hrec := ih { s with batch := [d], batch_len := 1 }
        (by simp [hsize]) (by simp) (by simp) (by simp; omega)
      simp only [SolrBatchAdder.add_multi, hstep] at *
      refine ⟨hrec.1, ?_, ?_⟩
      · have harg : s.batch_len - 1 + (d :: rest).length = B + rest.length := by
          simp only [List.length_cons]; omega
        rw [harg, Nat.add_mod_left]
        simpa using hrec.2.1
      · have harg : s.batch_len - 1 + (d :: rest).length = rest.length + B := by
          simp only [List.length_cons]; omega
        rw [harg, Nat.add_div_right _ hB]
        have := hrec.2.2
        simp only [Nat.sub_self, Nat.zero_add] at this ⊢
        simp [this]
    · have hstep := append_commit_allOk_notfull s d hfull
      have hrec := ih (s.add_to_batch d)
        (by simp [SolrBatchAdder.add_to_batch, hsize])
        (by simp [SolrBatchAdder.add_to_batch, hlen])
        (by simp [SolrBatchAdder.add_to_batch])
        (by simp [SolrBatchAdder.add_to_batch]; omega)
      simp only [SolrBatchAdder.add_multi, hstep] at *
      simp only [SolrBatchAdder.add_to_batch] at hrec
      refine ⟨hrec.1, ?_, ?_⟩
      · have harg : s.batch_len - 1 + (d :: rest).length = s.batch_len + 1 - 1 + rest.length := by
          simp only [List.length_cons]; omega
        rw [harg]
        exact hrec.2.1
      · have harg : s.batch_len - 1 + (d :: rest).length = s.batch_len + 1 - 1 + rest.length := by
          simp only [List.length_cons]; omega
        rw [harg]
        simpa using hrec.2.2

/-- Claim C1 (counterexample): with `batch_size = 2` and `auto_commit = true`,
after the second of three `add_one` calls no flush has been issued and the
buffer still holds both documents, contradicting the claim that the second
`add_one` (buffer length reaching `batch_size`) triggers a flush before
returning and leaves the buffer empty. -/
theorem second_addOne_leaves_full_buffer :
    ((mkBatchAdder 2 true).add_one allOk 10).2.2 = [] ∧
    (((mkBatchAdder 2 true).add_one allOk 10).1.add_one allOk 20).2.2 = [] ∧
    (((mkBatchAdder 2 true).add_one allOk 10).1.add_one allOk 20).1.batch = [10, 20] ∧
    (((mkBatchAdder 2 true).add_one allOk 10).1.add_one allOk 20).1.batch ≠ [] := by
  decide

/-- Claim C1 (amended): `add_one` flushes *before* appending, exactly when
the buffer already holds `batch_size` documents; hence a sequence of
`1 + k` `add_one` calls with `batch_size = B` issues exactly `k / B`
automatic flushes and leaves `k % B + 1` documents in the buffer
immediately before the final explicit flush.  With `batch_size = 2` and
`auto_commit = true`, after the second `add_one` the buffer holds
`[D1, D2]` with no flush issued yet, and after the third `add_one` one
flush of `[D1, D2]` (with commit) has happened and the buffer holds `[D3]`. -/
theorem addOne_flush_schedule (B : Nat) (auto : Bool) (hB : 0 < B)
    (d : Doc) (rest : List Doc) :
    ((mkBatchAdder B auto).add_multi allOk (d :: rest)).2.1 = none ∧
    ((mkBatchAdder B auto).add_multi allOk (d :: rest)).1.batch.length = rest.length % B + 1 ∧
    ((mkBatchAdder B auto).add_multi allOk (d :: rest)).2.2.length = rest.length / B ∧
    (∀ d1 d2 d3 : Doc,
      ((mkBatchAdder 2 true).add_multi allOk [d1, d2]).2.2 = [] ∧
      ((mkBatchAdder 2 true).add_multi allOk [d1, d2]).1.batch = [d1, d2] ∧
      ((mkBatchAdder 2 true).add_multi allOk [d1, d2, d3]).2.2 = [Event.add [d1, d2] true] ∧
      ((mkBatchAdder 2 true).add_multi allOk [d1, d2, d3]).1.batch = [d3]) := by
  have hstep := append_commit_allOk_notfull (mkBatchAdder B auto) d
    (by simp [mkBatchAdder]; omega)
  have hrec := add_multi_allOk_run B hB rest ((mkBatchAdder B auto).add_to_batch d)
    (by simp [SolrBatchAdder.add_to_batch, mkBatchAdder])
    (by simp [SolrBatchAdder.add_to_batch, mkBatchAdder])
    (by simp [SolrBatchAdder.add_to_batch, mkBatchAdder])
    (by simp [SolrBatchAdder.add_to_batch, mkBatchAdder]; omega)
  simp only [SolrBatchAdder.add_multi, hstep] at *
  simp only [SolrBatchAdder.add_to_batch, mkBatchAdder] at hrec
  refine ⟨hrec.1, by simpa using hrec.2.1, by simpa using hrec.2.2, ?_⟩
  intro d1 d2 d3
  exact ⟨rfl, rfl, rfl, rfl⟩

/-- Claim C1 (witness): the amended flush schedule evaluated at
`batch_size = 2`, documents `10 :: [20, 30]`. -/
theorem addOne_flush_schedule_witness :
    ((mkBatchAdder 2 true).add_multi allOk (10 :: [20, 30])).2.2.length = [20, 30].length / 2 ∧
    ((mkBatchAdder 2 true).add_multi allOk (10 :: [20, 30])).1.batch.length = [20, 30].length % 2 + 1 :=
  ⟨(addOne_flush_schedule 2 true (by decide) 10 [20, 30]).2.2.1,
   (addOne_flush_schedule 2 true (by decide) 10 [20, 30]).2.1⟩

/-- Claim C3 (counterexample): with a collaborator failing both the batched
add and the commit with a server error, `flush` on a batch adder with
`auto_commit = true` propagates the exception and leaves the buffer
non-empty, contradicting the claim that `flush` returns normally and
empties the buffer under every collaborator behaviour. -/
theorem flush_raises_on_commit_error :
    (SolrBatchAdder.flush
        { batch := [7], batch_len := 1, batch_size := 5, auto_commit := true }
        (fun _ => some Exn.server)).2.1 ≠ none ∧
    (SolrBatchAdder.flush
        { batch := [7], batch_len := 1, batch_size := 5, auto_commit := true }
        (fun _ => some Exn.server)).1.batch ≠ [] := by
  decide

/-- Claim C3 (amended): `flush` returns normally and empties the buffer for
every collaborator behaviour, except in exactly one case: the batched add
fails, `auto_commit` is true, and the trailing commit raises a
non-timeout error — then that error propagates out of `flush` and the
buffer is left unchanged (the clearing lines are skipped). -/
theorem flush_clears_unless_commit_escapes (s : SolrBatchAdder) (beh : BatchBeh) :
    (s.flush beh).2.1 =
      (if (beh (SolrCall.add s.batch s.auto_commit)).isSome && s.auto_commit
          && commitEscapes (beh SolrCall.commit)
        then beh SolrCall.commit else none) ∧
    (s.flush beh).1 =
      (if (beh (SolrCall.add s.batch s.auto_commit)).isSome && s.auto_commit
          && commitEscapes (beh SolrCall.commit)
        then s else { s with batch := [], batch_len := 0 }) := by
  rcases hadd : beh (SolrCall.add s.batch s.auto_commit) with _ | e
  · simp [SolrBatchAdder.flush, hadd]
  · rcases hauto : s.auto_commit with _ | _ <;> rw [hauto] at hadd
    · simp [SolrBatchAdder.flush, hadd, hauto]
    · rcases hcm : beh SolrCall.commit with _ | e'
      · simp [SolrBatchAdder.flush, commitMethod, commitEscapes, hadd, hauto, hcm]
      · cases e' <;>
          simp [SolrBatchAdder.flush, commitMethod, commitEscapes, hadd, hauto, hcm]

/-- Claim C4: when the batched add fails, `flush` issues exactly one
individual add per buffered document, in the buffer's order, each with
`commit=False`, followed by exactly one commit request iff `auto_commit`;
the per-item outcomes never influence the calls issued or the propagated
exception (which can only come from the commit request). -/
theorem flush_fallback_per_doc (s : SolrBatchAdder) (beh : BatchBeh) (e : Exn)
    (_hne : s.batch ≠ [])
    (hfail : beh (SolrCall.add s.batch s.auto_commit) = some e) :
    (s.flush beh).2.2 =
      Event.add s.batch s.auto_commit :: s.batch.map (fun d => Event.add [d] false)
        ++ (if s.auto_commit then [Event.commitCall] else []) ∧
    (s.flush beh).2.1 =
      (if s.auto_commit && commitEscapes (beh SolrCall.commit)
        then beh SolrCall.commit else none) := by
  rcases hauto : s.auto_commit with _ | _ <;> rw [hauto] at hfail
  · simp [SolrBatchAdder.flush, hfail, hauto]
  · rcases hcm : beh SolrCall.commit with _ | e'
    · simp [SolrBatchAdder.flush, commitMethod, commitEscapes, hfail, hauto, hcm]
    · cases e' <;>
        simp [SolrBatchAdder.flush, commitMethod, commitEscapes, hfail, hauto, hcm]

/-- Claim C4 (witness): the fallback pass evaluated on a two-document
buffer whose collaborator fails every call with a server error. -/
theorem flush_fallback_per_doc_witness :
    (SolrBatchAdder.flush
        { batch := [7, 8], batch_len := 2, batch_size := 5, auto_commit := true }
        (fun _ => some Exn.server)).2.2 =
      [Event.add [7, 8] true, Event.add [7] false, Event.add [8] false, Event.commitCall] ∧
    (SolrBatchAdder.flush
        { batch := [7, 8], batch_len := 2, batch_size := 5, auto_commit := true }
        (fun _ => some Exn.server)).2.1 = some Exn.server := by
  have h := flush_fallback_per_doc
    { batch := [7, 8], batch_len := 2, batch_size := 5, auto_commit := true }
    (fun _ => some Exn.server) Exn.server (by decide) rfl
  exact ⟨by rw [h.1]; decide, by rw [h.2]; decide⟩

/-- Claim C7 (counterexample): a commit request failing with a server
error is not swallowed: it propagates out of `SolrBatchAdder.commit` and
hence out of `flush` (here reached via the fallback path), contradicting
the claim that every commit failure is only logged. -/
theorem flush_propagates_commit_server_error :
    (commitMethod (fun _ => some Exn.server)).1 = some Exn.server ∧
    (SolrBatchAdder.flush
        { batch := [1], batch_len := 1, batch_size := 3, auto_commit := true }
        (fun c => match c with
          | SolrCall.add _ _ => some Exn.transport
          | SolrCall.commit => some Exn.server)).2.1 = some Exn.server := by
  decide

/-- Claim C7 (amended): `SolrBatchAdder.commit` swallows only
`socket.timeout`; any other failure of the commit request propagates,
and when the commit is reached inside `flush` (batched add failed,
`auto_commit` true) `flush` propagates exactly what `commit` does. -/
theorem commit_swallows_only_timeout (s : SolrBatchAdder) (beh : BatchBeh) (e : Exn) :
    (beh SolrCall.commit = some Exn.timeout → (commitMethod beh).1 = none) ∧
    (commitMethod beh).1 =
      (if commitEscapes (beh SolrCall.commit) then beh SolrCall.commit else none) ∧
    (beh (SolrCall.add s.batch s.auto_commit) = some e → s.auto_commit = true →
      (s.flush beh).2.1 = (commitMethod beh).1) := by
  refine ⟨?_, ?_, ?_⟩
  · intro h; simp [commitMethod, h]
  · rcases hcm : beh SolrCall.commit with _ | e'
    · simp [commitMethod, commitEscapes, hcm]
    · cases e' <;> simp [commitMethod, commitEscapes, hcm]
  · intro hfail hauto
    rw [hauto] at hfail
    rcases hcm : commitMethod beh with ⟨_ | e', cev⟩ <;>
      simp [SolrBatchAdder.flush, hfail, hauto, hcm]

/-- Claim C7 (witness): the amended commit policy evaluated at a
behaviour whose commit times out (swallowed) and at one whose batched
add fails with the commit answering a server error (propagated). -/
theorem commit_swallows_only_timeout_witness :
    (commitMethod (fun _ => some Exn.timeout)).1 = none ∧
    (SolrBatchAdder.flush
        { batch := [1], batch_len := 1, batch_size := 3, auto_commit := true }
        (fun _ => some Exn.server)).2.1 =
      (commitMethod (fun _ => some Exn.server)).1 := by
  refine ⟨?_, ?_⟩
  · exact (commit_swallows_only_timeout (mkBatchAdder 3 true)
      (fun _ => some Exn.timeout) Exn.server).1 rfl
  · exact (commit_swallows_only_timeout
      { batch := [1], batch_len := 1, batch_size := 3, auto_commit := true }
      (fun _ => some Exn.server) Exn.server).2.2 rfl rfl

/-- Claim C10: `flush` on an empty buffer is not a no-op: it issues
exactly one batched add call carrying the empty document list (with the
`auto_commit` flag as its commit argument) and, that call succeeding,
propagates nothing; moreover a scoped `solr_batch_adder` use in which no
document was ever added still ends with exactly that collaborator call. -/
theorem flush_empty_buffer_still_calls (s : SolrBatchAdder) (beh : BatchBeh)
    (hempty : s.batch = [])
    (hok : beh (SolrCall.add [] s.auto_commit) = none) :
    (s.flush beh).2.2 = [Event.add [] s.auto_commit] ∧
    (s.flush beh).2.1 = none ∧
    (s.flush beh).1.batch = [] ∧
    (∀ (bs : Nat) (auto : Bool) (beh' : BatchBeh),
      beh' (SolrCall.add [] auto) = none →
      (solr_batch_adder_scope beh' bs auto []).2.2 = [Event.add [] auto]) := by
  refine ⟨?_, ?_, ?_, ?_⟩
  · simp [SolrBatchAdder.flush, hempty, hok]
  · simp [SolrBatchAdder.flush, hempty, hok]
  · simp [SolrBatchAdder.flush, hempty, hok]
  · intro bs auto beh' hok'
    simp [solr_batch_adder_scope, SolrBatchAdder.add_multi, SolrBatchAdder.flush,
      mkBatchAdder, hok']

/-- Claim C10 (witness): the empty-buffer flush evaluated on a fresh
adder under the all-success behaviour, and a scoped use with no adds. -/
theorem flush_empty_buffer_still_calls_witness :
    ((mkBatchAdder 3 true).flush allOk).2.2 = [Event.add [] true] ∧
    (solr_batch_adder_scope allOk 5 false []).2.2 = [Event.add [] false] :=
  ⟨(flush_empty_buffer_still_calls (mkBatchAdder 3 true) allOk rfl rfl).1,
   (flush_empty_buffer_still_calls (mkBatchAdder 3 true) allOk rfl rfl).2.2.2 5 false allOk rfl⟩

/-- Claim C2 (counterexample): a transport error raised by the fetch of a
*subsequent* page inside `next` is not propagated: the call returns
`StopIteration` and the paginator is marked exhausted — even though the
fetch was issued, as the recorded request shows — so the pre-fetch state
is not preserved and no retry is possible. -/
theorem advance_swallows_midstream_fetch_error :
    (Paginator.next
        { query := "q", default_params := [], inited := true, exhausted := false,
          index := 3, max_index := none, page := some { docs := [1, 2, 3], hits := 10 },
          item_iter := [] }
        (fun _ _ => Except.error Exn.transport)).2.1 = NextRes.stop ∧
    (Paginator.next
        { query := "q", default_params := [], inited := true, exhausted := false,
          index := 3, max_index := none, page := some { docs := [1, 2, 3], hits := 10 },
          item_iter := [] }
        (fun _ _ => Except.error Exn.transport)).1.exhausted = true ∧
    (Paginator.next
        { query := "q", default_params := [], inited := true, exhausted := false,
          index := 3, max_index := none, page := some { docs := [1, 2, 3], hits := 10 },
          item_iter := [] }
        (fun _ _ => Except.error Exn.transport)).2.2 ≠ [] := by
  decide

/-- Claim C2 (amended): a search error during the *initial* fetch of a
paginator propagates to the caller and leaves the paginator in its
pre-fetch state (not exhausted, retry possible); but a search error
during a *subsequent* page fetch inside `next` is caught by the bare
`except`: the paginator is marked exhausted and the call reports end of
iteration instead of propagating. -/
theorem advance_fetch_error_policy (p : Paginator) (beh : SearchBeh) (e : Exn)
    (hmax : p.past_max = false)
    (hfetch : beh p.query (setKey p.default_params "start" (Val.n p.index)) =
      Except.error e) :
    (p.inited = false →
      p.next beh = (p, NextRes.exn e,
        [(p.query, setKey p.default_params "start" (Val.n p.index))])) ∧
    (p.inited = true → p.item_iter = [] →
      p.next beh = ({ p with exhausted := true }, NextRes.stop,
        [(p.query, setKey p.default_params "start" (Val.n p.index))])) := by
  constructor
  · intro hin
    simp [Paginator.next, hmax, Paginator.init_if_needed, hin,
      Paginator.move_to_next_page, hfetch]
  · intro hin hit
    simp [Paginator.next, hmax, Paginator.init_if_needed, hin, Paginator.next_aux,
      hit, Paginator.move_to_next_page, hfetch]

/-- Claim C2 (witness): the error policy evaluated on a fresh paginator
(initial fetch raising a server error: propagated, state untouched) and
on a mid-stream paginator with a spent page (error swallowed,
exhausted). -/
theorem advance_fetch_error_policy_witness :
    (mkPaginator "q" [] none).next (fun _ _ => Except.error Exn.server) =
      (mkPaginator "q" [] none, NextRes.exn Exn.server,
        [("q", setKey [] "start" (Val.n 0))]) ∧
    (Paginator.next
        { query := "q", default_params := [], inited := true, exhausted := false,
          index := 3, max_index := none, page := some { docs := [1, 2, 3], hits := 10 },
          item_iter := [] }
        (fun _ _ => Except.error Exn.transport)).2.1 = NextRes.stop :=
  ⟨(advance_fetch_error_policy (mkPaginator "q" [] none)
      (fun _ _ => Except.error Exn.server) Exn.server rfl rfl).1 rfl,
   by
    rw [(advance_fetch_error_policy
        { query := "q", default_params := [], inited := true, exhausted := false,
          index := 3, max_index := none, page := some { docs := [1, 2, 3], hits := 10 },
          item_iter := [] }
        (fun _ _ => Except.error Exn.transport) Exn.transport rfl rfl).2 rfl rfl]⟩

/-- Claim C9: once the per-document index strictly exceeds `max_index`,
`next` reports end of iteration without issuing any fetch and without
touching the state; and the cutoff plays no part in the total-hit count
reported by `size` (changing `max_index` changes neither the reported
hits nor the requests `size` issues). -/
theorem max_index_cutoff (p : Paginator) (beh : SearchBeh) (m : Nat)
    (hm : p.max_index = some m) (hgt : p.index > m) :
    p.next beh = (p, NextRes.stop, []) ∧
    (∀ mi' : Option Nat,
      sizeHits (({ p with max_index := mi' }).size beh) = sizeHits (p.size beh)) := by
  constructor
  · simp [Paginator.next, Paginator.past_max, hm, hgt]
  · intro mi'
    by_cases hin : p.inited
    · simp [sizeHits, Paginator.size, Paginator.init_if_needed, hin, Except.map]
    · rcases hr : beh p.query (setKey p.default_params "start" (Val.n p.index))
        with e | pg <;>
        simp [sizeHits, Paginator.size, Paginator.init_if_needed, hin,
          Paginator.move_to_next_page, hr, Except.map]

/-- Claim C9 (witness): the cutoff evaluated on a paginator with
`max_index = 1` and index 2, against an always-failing collaborator
(whose being never called the empty fetch list shows). -/
theorem max_index_cutoff_witness :
    Paginator.next
        { query := "q", default_params := [], inited := true, exhausted := false,
          index := 2, max_index := some 1, page := some { docs := [5], hits := 7 },
          item_iter := [] }
        (fun _ _ => Except.error Exn.server) =
      ({ query := "q", default_params := [], inited := true, exhausted := false,
         index := 2, max_index := some 1, page := some { docs := [5], hits := 7 },
         item_iter := [] }, NextRes.stop, []) :=
  (max_index_cutoff
      { query := "q", default_params := [], inited := true, exhausted := false,
        index := 2, max_index := some 1, page := some { docs := [5], hits := 7 },
        item_iter := [] }
      (fun _ _ => Except.error Exn.server) 1 rfl (by decide)).1

/-- Requesting iteration on a freshly constructed paginator behaves the
same for every `max_index`: the first `next` call's outcome and fetches
do not depend on it (the cutoff cannot fire at index 0). -/
theorem next_fresh_ignores_max_index (q : String) (dp : Params)
    (mi : Option Nat) (beh : SearchBeh) :
    ((mkPaginator q dp mi).next beh).2 = ((mkPaginator q dp none).next beh).2 := by
  cases mi with
  | none => rfl
  | some m =>
    rcases hr : beh q (setKey dp "start" (Val.n 0)) with e | pg
    · simp [Paginator.next, mkPaginator, Paginator.past_max,
        Paginator.init_if_needed, Paginator.move_to_next_page, hr]
    · cases hd : pg.docs <;>
        simp [Paginator.next, mkPaginator, Paginator.past_max,
          Paginator.init_if_needed, Paginator.move_to_next_page, hr,
          Paginator.next_aux, hd]

/-- Claim C6: iterating an exhausted paginator yields a fresh instance
carrying the same query and the same default parameters with index reset
to 0, and (against an unchanged index, i.e. the same behaviour) its first
`next` returns exactly what the first `next` of the originally
constructed paginator returned; iterating a non-exhausted paginator
yields the very same state, continuing from the current position. -/
theorem iter_restart_policy (p : Paginator) :
    (p.exhausted = true →
      p.iter = mkPaginator p.query p.default_params none ∧
      ∀ beh : SearchBeh, (p.iter.next beh).2 =
        ((mkPaginator p.query p.default_params p.max_index).next beh).2) ∧
    (p.exhausted = false → p.iter = p) := by
  constructor
  · intro hex
    constructor
    · simp [Paginator.iter, hex]
    · intro beh
      rw [show p.iter = mkPaginator p.query p.default_params none by
        simp [Paginator.iter, hex]]
      exact (next_fresh_ignores_max_index p.query p.default_params p.max_index beh).symm
  · intro hex
    simp [Paginator.iter, hex]

/-- Claim C6 (witness): the restart policy evaluated on a concrete
exhausted paginator and on a concrete non-exhausted one. -/
theorem iter_restart_policy_witness :
    Paginator.iter
        { query := "t", default_params := [("rows", Val.n 1)], inited := true,
          exhausted := true, index := 2, max_index := none,
          page := some { docs := [], hits := 2 }, item_iter := [] } =
      mkPaginator "t" [("rows", Val.n 1)] none ∧
    Paginator.iter
        { query := "t", default_params := [], inited := true, exhausted := false,
          index := 1, max_index := none, page := some { docs := [4], hits := 2 },
          item_iter := [] } =
      { query := "t", default_params := [], inited := true, exhausted := false,
        index := 1, max_index := none, page := some { docs := [4], hits := 2 },
        item_iter := [] } :=
  ⟨((iter_restart_policy
      { query := "t", default_params := [("rows", Val.n 1)], inited := true,
        exhausted := true, index := 2, max_index := none,
        page := some { docs := [], hits := 2 }, item_iter := [] }).1 rfl).1,
   (iter_restart_policy
      { query := "t", default_params := [], inited := true, exhausted := false,
        index := 1, max_index := none, page := some { docs := [4], hits := 2 },
        item_iter := [] }).2 rfl⟩

/-- One `next` call: query, default parameters and `max_index` are
untouched, the index grows by 1 exactly when a document is returned, and
every fetch issued during the call carries `start = p.index` merged over
the default parameters. -/
theorem next_step_invariants (p : Paginator) (beh : SearchBeh) :
    (p.next beh).1.query = p.query ∧
    (p.next beh).1.default_params = p.default_params ∧
    (p.next beh).1.index = p.index + (if (p.next beh).2.1.isDoc then 1 else 0) ∧
    ∀ ev ∈ (p.next beh).2.2,
      ev = (p.query, setKey p.default_params "start" (Val.n p.index)) := by
  by_cases hpm : p.past_max
  · simp [Paginator.next, hpm, NextRes.isDoc]
  · by_cases hin : p.inited
    · cases hit : p.item_iter with
      | cons d rest =>
        simp [Paginator.next, hpm, Paginator.init_if_needed, hin,
          Paginator.next_aux, hit, NextRes.isDoc]
      | nil =>
        rcases hr : beh p.query (setKey p.default_params "start" (Val.n p.index))
          with e | pg
        · simp [Paginator.next, hpm, Paginator.init_if_needed, hin,
            Paginator.next_aux, hit, Paginator.move_to_next_page, hr, NextRes.isDoc]
        · cases hd : pg.docs <;>
            simp [Paginator.next, hpm, Paginator.init_if_needed, hin,
              Paginator.next_aux, hit, Paginator.move_to_next_page, hr, hd,
              NextRes.isDoc]
    · rcases hr : beh p.query (setKey p.default_params "start" (Val.n p.index))
        with e | pg
      · simp [Paginator.next, hpm, Paginator.init_if_needed, hin,
          Paginator.move_to_next_page, hr, NextRes.isDoc]
      · cases hd : pg.docs <;>
          simp [Paginator.next, hpm, Paginator.init_if_needed, hin,
            Paginator.move_to_next_page, hr, Paginator.next_aux, hd, NextRes.isDoc]

/-- Over a run of `next` calls, the final index equals the starting index
plus the number of documents returned, and every fetch sent `start`
equal to the running count of consumed documents. -/
theorem runNexts_start_invariant (beh : SearchBeh) (n : Nat) :
    ∀ p : Paginator,
      (runNexts beh n p).2.index = p.index + countDocs (runNexts beh n p).1 ∧
      startsOk p.query p.default_params p.index (runNexts beh n p).1 = true := by
  induction n with
  | zero => intro p; simp [runNexts, countDocs, startsOk]
  | succ n ih =>
    intro p
    obtain ⟨hq, hdp, hidx, hev⟩ := next_step_invariants p beh
    obtain ⟨ihidx, ihok⟩ := ih (p.next beh).1
    refine ⟨?_, ?_⟩
    · show (runNexts beh n (p.next beh).1).2.index =
        p.index + countDocs (((p.next beh).2.1, (p.next beh).2.2) ::
          (runNexts beh n (p.next beh).1).1)
      rw [ihidx, hidx]
      simp only [countDocs, List.filter_cons]
      cases hdoc : (p.next beh).2.1.isDoc <;> (simp [hdoc]; try omega)
    · show (startsOk p.query p.default_params p.index
        (((p.next beh).2.1, (p.next beh).2.2) ::
          (runNexts beh n (p.next beh).1).1)) = true
      rw [startsOk]
      apply Bool.and_eq_true_iff.mpr
      constructor
      · rw [List.all_eq_true]
        intro ev hmem
        rw [decide_eq_true_iff]
        exact hev ev hmem
      · have := ihok
        rw [hq, hdp, hidx] at this
        cases hdoc : (p.next beh).2.1.isDoc <;> rw [hdoc] at this <;> simpa using this

/-- Claim C8: starting from a freshly constructed paginator, the index
counter always equals the number of documents returned to the caller so
far (it advances by exactly 1 per consumed document, never per page),
and every page fetch sends exactly that counter as the `start`
parameter, merged over the fixed default parameters. -/
theorem offset_counts_consumed_docs (beh : SearchBeh) (q : String) (dp : Params)
    (mi : Option Nat) (n : Nat) :
    (runNexts beh n (mkPaginator q dp mi)).2.index =
      countDocs (runNexts beh n (mkPaginator q dp mi)).1 ∧
    startsOk q dp 0 (runNexts beh n (mkPaginator q dp mi)).1 = true := by
  have h := runNexts_start_invariant beh n (mkPaginator q dp mi)
  simpa [mkPaginator] using h

/-- With every fetch succeeding, a `next` call (whose max-index cutoff
does not fire) leaves the paginator exhausted and reports end of
iteration exactly when a page fetched during that call came back with
zero documents. -/
theorem next_exhausts_iff_empty_fetch (pg : String → Params → Page) (p : Paginator)
    (hmax : p.past_max = false) :
    ((p.next (totalBeh pg)).1.exhausted = true ∧
        (p.next (totalBeh pg)).2.1 = NextRes.stop)
      ↔ ∃ ev ∈ (p.next (totalBeh pg)).2.2, (pg ev.1 ev.2).docs = [] := by
  by_cases hin : p.inited
  · cases hit : p.item_iter with
    | cons d rest =>
      simp [Paginator.next, hmax, Paginator.init_if_needed, hin,
        Paginator.next_aux, hit, totalBeh]
    | nil =>
      cases hd : (pg p.query (setKey p.default_params "start" (Val.n p.index))).docs with
      | nil =>
        simp [Paginator.next, hmax, Paginator.init_if_needed, hin,
          Paginator.next_aux, hit, Paginator.move_to_next_page, totalBeh, hd]
      | cons d rest =>
        simp [Paginator.next, hmax, Paginator.init_if_needed, hin,
          Paginator.next_aux, hit, Paginator.move_to_next_page, totalBeh, hd]
  · cases hd : (pg p.query (setKey p.default_params "start" (Val.n p.index))).docs with
    | nil =>
      simp [Paginator.next, hmax, Paginator.init_if_needed, hin,
        Paginator.next_aux, Paginator.move_to_next_page, totalBeh, hd]
    | cons d rest =>
      simp [Paginator.next, hmax, Paginator.init_if_needed, hin,
        Paginator.next_aux, Paginator.move_to_next_page, totalBeh, hd]

/-- `next` commutes with erasing every total-hit count (in the state and
in the behaviour): the resulting outcome and fetches are identical, so
no control decision of `next` reads `hits`. -/
theorem next_eraseHits_comm (beh : SearchBeh) (p : Paginator) :
    (p.eraseHits).next (maskHits beh) =
      ((p.next beh).1.eraseHits, (p.next beh).2.1, (p.next beh).2.2) := by
  obtain ⟨q, dp, ini, exh, idx, mi, pag, it⟩ := p
  by_cases hpmv : (Paginator.mk q dp ini exh idx mi pag it).past_max
  · simp only [Paginator.past_max] at hpmv
    simp [Paginator.next, Paginator.past_max, Paginator.eraseHits, hpmv]
  · simp only [Paginator.past_max] at hpmv
    rw [Bool.not_eq_true] at hpmv
    cases ini with
    | true =>
      cases hit : it with
      | cons d rest =>
        simp [Paginator.next, Paginator.past_max, Paginator.eraseHits, hpmv,
          Paginator.init_if_needed, Paginator.next_aux]
      | nil =>
        rcases hr : beh q (setKey dp "start" (Val.n idx)) with e | pg
        · simp [Paginator.next, Paginator.past_max, Paginator.eraseHits, hpmv,
            Paginator.init_if_needed, Paginator.next_aux,
            Paginator.move_to_next_page, maskHits, hr, Except.map]
        · cases hd : pg.docs <;>
            simp [Paginator.next, Paginator.past_max, Paginator.eraseHits, hpmv,
              Paginator.init_if_needed, Paginator.next_aux,
              Paginator.move_to_next_page, maskHits, hr, Except.map,
              Page.eraseHits, hd]
    | false =>
      rcases hr : beh q (setKey dp "start" (Val.n idx)) with e | pg
      · simp [Paginator.next, Paginator.past_max, Paginator.eraseHits, hpmv,
          Paginator.init_if_needed, Paginator.move_to_next_page, maskHits, hr,
          Except.map]
      · cases hd : pg.docs <;>
          simp [Paginator.next, Paginator.past_max, Paginator.eraseHits, hpmv,
            Paginator.init_if_needed, Paginator.next_aux,
            Paginator.move_to_next_page, maskHits, hr, Except.map,
            Page.eraseHits, hd]

/-- Claim C5: under successful fetches, a `next` call exhausts the
paginator and reports end of iteration exactly when a page fetched
during that call has zero documents; and `next` commutes with erasing
every total-hit count, so termination is never decided by comparing the
offset against any page's `hits` value. -/
theorem empty_page_sole_exhaustion_signal :
    (∀ (pg : String → Params → Page) (p : Paginator), p.past_max = false →
      (((p.next (totalBeh pg)).1.exhausted = true ∧
          (p.next (totalBeh pg)).2.1 = NextRes.stop)
        ↔ ∃ ev ∈ (p.next (totalBeh pg)).2.2, (pg ev.1 ev.2).docs = [])) ∧
    (∀ (beh : SearchBeh) (p : Paginator),
      (p.eraseHits).next (maskHits beh) =
        ((p.next beh).1.eraseHits, (p.next beh).2.1, (p.next beh).2.2)) :=
  ⟨fun pg p hmax => next_exhausts_iff_empty_fetch pg p (by simpa using hmax),
   next_eraseHits_comm⟩

/-- Claim C5 (witness): the exhaustion criterion evaluated on a fresh
paginator against a collaborator whose every page is empty. -/
theorem empty_page_sole_exhaustion_signal_witness :
    ((((mkPaginator "q" [] none).next (totalBeh emptyPages)).1.exhausted = true ∧
        ((mkPaginator "q" [] none).next (totalBeh emptyPages)).2.1 = NextRes.stop) ↔
      ∃ ev ∈ ((mkPaginator "q" [] none).next (totalBeh emptyPages)).2.2,
        (emptyPages ev.1 ev.2).docs = []) :=
  empty_page_sole_exhaustion_signal.1 emptyPages (mkPaginator "q" [] none) rfl

end PythonSolr
